import Mathlib

/-!
Verification development for the oggify track-retrieval pipeline
(`src/main.rs`).  The pipeline is embedded shallowly: the network/session
layer (librespot) is an external collaborator and is modelled as an oracle
record of pure functions; every fallible step of `main` becomes an
`Option`/`Except` value, and the `expect`/`assert!` crash-on-error calls of
the source become `Except.error` values that terminate the run loop.
-/

/-- Audio encoding tiers, mirroring librespot's `FileFormat` enum as used by
`main.rs` (only the three vorbis tiers are consulted by the program). -/
inductive FileFormat where
  | OGG_VORBIS_96
  | OGG_VORBIS_160
  | OGG_VORBIS_320
  | MP3_256
  | MP3_320
  | MP3_160
  | MP3_96
  | MP3_160_ENC
  | MP4_128_DUAL
  | OTHER3
  | AAC_160
  | AAC_320
  | MP4_128
  | OTHER5
deriving DecidableEq

/-- Track metadata, mirroring librespot's `Track` as consumed by `main.rs`:
id, display name, album id, contributing artist ids, encoding map,
alternative track ids, availability flag.  Spotify ids are `u128` values,
embedded as `Nat`. -/
structure Track where
  id : Nat
  name : String
  album : Nat
  artists : List Nat
  files : FileFormat → Option Nat
  alternatives : List Nat
  available : Bool

/-- The crash points of the per-track closure of `main` (each is an
`expect`/`unwrap`/`assert!`/slice-panic in the source). -/
inductive TrackError where
  | trackFetchFailed
  | noAlternative
  | artistFetchFailed
  | noOggFormat
  | keyDenied
  | streamFailed
  | decryptFailed
  | bufferTooShort
  | albumFetchFailed
  | helperSpawnFailed
  | helperNonZeroExit
deriving DecidableEq

/-- The observable delivery of one processed track: either a file write
(filename as reported by `info!("Filename: {}")`, payload bytes) or a helper
subprocess run (program, positional arguments, bytes written to its stdin). -/
inductive DispatchResult where
  | fileWrite (fname : String) (payload : List UInt8)
  | helperRun (program : String) (args : List String) (stdinPayload : List UInt8)
deriving DecidableEq

/-- The external collaborators of `main.rs`, as a record of oracles.
`getTrack`/`getArtist`/`getAlbum` model `Track::get`/`Artist::get`/
`Album::get` (album gives name and `date.to_string()`); `audioKey` models
`session.audio_key().request(track.id, file_id)`; `openStream` models
`AudioFile::open` followed by the bridged `read_to_end` (the fully
materialised encrypted bytes, `none` on open/read failure); `decrypt` models
`AudioDecrypt::new(key, ..).read_to_end`; `runHelper` models spawning the
helper, writing its stdin and waiting (`none` on spawn/write/wait failure,
otherwise the exit status). -/
structure SessionOracle where
  getTrack : Nat → Option Track
  getArtist : Nat → Option String
  getAlbum : Nat → Option (String × String)
  audioKey : Nat → Nat → Option Nat
  openStream : Nat → Option (List UInt8)
  decrypt : Nat → List UInt8 → Option (List UInt8)
  runHelper : String → List String → List UInt8 → Option Int

/-- Value of one character in librespot's base-62 alphabet
`0123456789abcdefghijklmnopqrstuvwxyzABCDEFGHIJKLMNOPQRSTUVWXYZ`
(`none` for a character outside the alphabet). -/
def base62Digit (c : Char) : Option Nat :=
  if c.isDigit then some (c.toNat - 48)
  else if c.isLower then some (c.toNat - 97 + 10)
  else if c.isUpper then some (c.toNat - 65 + 36)
  else none

/-- Accumulating loop of `SpotifyId::from_base62`: `n = n * 62 + d` over a
`u128`, hence reduced modulo `2 ^ 128` (release-build wrapping semantics). -/
def fromBase62Aux (acc : Nat) : List Char → Option Nat
  | [] => some acc
  | c :: rest =>
    match base62Digit c with
    | none => none
    | some d => fromBase62Aux ((acc * 62 + d) % 2 ^ 128) rest

/-- `SpotifyId::from_base62`: fails exactly when some character is outside
the base-62 alphabet. -/
def fromBase62 (cs : List Char) : Option Nat :=
  fromBase62Aux 0 cs

/-- Character of one base-62 digit value (inverse direction of the same
alphabet, as used by `SpotifyId::to_base62`). -/
def base62Char (d : Nat) : Char :=
  if d < 10 then Char.ofNat (48 + d)
  else if d < 36 then Char.ofNat (97 + (d - 10))
  else Char.ofNat (65 + (d - 36))

/-- Digit-extraction loop of `SpotifyId::to_base62`: `k` rounds of
`n % 62` / `n / 62`, filling the output right to left. -/
def toBase62Aux : Nat → Nat → List Char → List Char
  | 0, _, acc => acc
  | k + 1, n, acc => toBase62Aux k (n / 62) (base62Char (n % 62) :: acc)

/-- `SpotifyId::to_base62`: a fixed-width 22-character base-62 rendering. -/
def toBase62S (n : Nat) : String :=
  String.mk (toBase62Aux 22 n [])

/-- Literal-text match at the head of a character list (the anchored part of
the two reference regexes). -/
def litMatch : List Char → List Char → Bool
  | [], _ => true
  | _ :: _, [] => false
  | a :: as, b :: bs => a = b && litMatch as bs

/-- Regex match attempt at one position: the literal part of the pattern must
start here and be followed by at least one ASCII-alphanumeric character; the
capture is the maximal alphanumeric run (`([[:alnum:]]+)`, greedy). -/
def matchAt (lit s : List Char) : Option (List Char) :=
  if litMatch lit s then
    let cap := (s.drop lit.length).takeWhile Char.isAlphanum
    if cap.isEmpty then none else some cap
  else none

/-- Leftmost-match search of `Regex::captures` for a pattern of the shape
`<literal>([[:alnum:]]+)`: try each position left to right, return the first
capture. -/
def findCapture (lit : List Char) : List Char → Option (List Char)
  | [] => none
  | c :: rest => (matchAt lit (c :: rest)).or (findCapture lit rest)

/-- Literal part of the URI-style pattern `spotify:track:([[:alnum:]]+)`. -/
def uriLit : List Char := "spotify:track:".toList

/-- Literal part of the URL-style pattern
`open\.spotify\.com/track/([[:alnum:]]+)`. -/
def urlLit : List Char := "open.spotify.com/track/".toList

/-- `spotify_uri.captures(&str)` of `main.rs`. -/
def captureUri (line : List Char) : Option (List Char) :=
  findCapture uriLit line

/-- `spotify_url.captures(&str)` of `main.rs`. -/
def captureUrl (line : List Char) : Option (List Char) :=
  findCapture urlLit line

/-- One line of the extractor chain of `main.rs`:
`spotify_uri.captures(..).or(spotify_url.captures(..)).or_else(warn; None)
.and_then(|c| SpotifyId::from_base62(&c[1]).ok())`.
Returns the extracted id (if any) and whether the warning fired (it fires
exactly when neither pattern matched). -/
def parseLine (line : List Char) : Option Nat × Bool :=
  match (captureUri line).or (captureUrl line) with
  | some cap => (fromBase62 cap, false)
  | none => (none, true)

/-- The `filter_map` stage of `main.rs`: ids of the lines that produced one,
in input order. -/
def extractIds (lines : List (List Char)) : List Nat :=
  lines.filterMap (fun l => (parseLine l).1)

/-- The alternatives walk of `main.rs` (the `find_map` over
`track.alternatives`), instrumented with the list of ids it fetches:
each alternative is fetched in listed order; a fetch failure is the
`expect("Cannot get track metadata")` crash; the first available alternative
is returned and the walk stops. -/
def probeAlternativesT (getTrack : Nat → Option Track) :
    List Nat → Except TrackError (Option Track) × List Nat
  | [] => (Except.ok none, [])
  | a :: rest =>
    match getTrack a with
    | none => (Except.error TrackError.trackFetchFailed, [a])
    | some t =>
      if t.available then (Except.ok (some t), [a])
      else
        let r := probeAlternativesT getTrack rest
        (r.1, a :: r.2)

/-- The resolution step of `main.rs` lines 91-103: fetch the track; if it is
available use it, otherwise walk the alternatives; an exhausted walk is the
`expect("Could not find alternative ...")` crash. -/
def resolveTrack (getTrack : Nat → Option Track) (id : Nat) :
    Except TrackError Track :=
  match getTrack id with
  | none => Except.error TrackError.trackFetchFailed
  | some t =>
    if t.available then Except.ok t
    else
      match (probeAlternativesT getTrack t.alternatives).1 with
      | Except.error e => Except.error e
      | Except.ok none => Except.error TrackError.noAlternative
      | Except.ok (some alt) => Except.ok alt

/-- The artist-name collection of `main.rs` line 104 (one `Artist::get` per
artist id, in order, each guarded by an `expect`). -/
def fetchArtists (getArtist : Nat → Option String) :
    List Nat → Except TrackError (List String)
  | [] => Except.ok []
  | a :: rest =>
    match getArtist a with
    | none => Except.error TrackError.artistFetchFailed
    | some n =>
      match fetchArtists getArtist rest with
      | Except.error e => Except.error e
      | Except.ok ns => Except.ok (n :: ns)

/-- The encoding selection of `main.rs` lines 106-108:
`files.get(OGG_VORBIS_320).or(files.get(OGG_VORBIS_160))
.or(files.get(OGG_VORBIS_96))`.  Pure: it consults only the map. -/
def selectFile (files : FileFormat → Option Nat) : Option Nat :=
  ((files FileFormat.OGG_VORBIS_320).or (files FileFormat.OGG_VORBIS_160)).or
    (files FileFormat.OGG_VORBIS_96)

/-- The preamble strip `&decrypted_buffer[0xa7..]` of `main.rs` lines 129 and
138: drops the first 167 bytes; a buffer shorter than 167 bytes makes the
slice panic, modelled as `none`. -/
def stripPreamble (b : List UInt8) : Option (List UInt8) :=
  if 167 ≤ b.length then some (b.drop 167) else none

/-- The filename synthesis of `main.rs` line 128:
`format!("{} - {}.ogg", artists_strs.join(", "), track.name)`. -/
def trackFilename (artists : List String) (name : String) : String :=
  String.intercalate ", " artists ++ " - " ++ name ++ ".ogg"

/-- The payload a `DispatchResult` delivered (file content, respectively the
bytes written to the helper's stdin). -/
def payloadOf : DispatchResult → List UInt8
  | DispatchResult.fileWrite _ p => p
  | DispatchResult.helperRun _ _ p => p

/-- The output dispatch of `main.rs` lines 127-140.  File mode (no helper
argument): write the stripped payload under the synthesized filename.  Helper
mode: fetch the album metadata, spawn the helper with positional arguments
`[original id in base 62, track name, album name, album date, artists...]`
and its stdin piped, write the stripped payload to that stdin, wait, and
treat a non-zero exit status as the `assert!(.. .success())` crash. -/
def dispatch (o : SessionOracle) (helper : Option String) (origId : Nat)
    (track : Track) (artists : List String) (decrypted : List UInt8) :
    Except TrackError DispatchResult :=
  match helper with
  | none =>
    match stripPreamble decrypted with
    | none => Except.error TrackError.bufferTooShort
    | some payload =>
      Except.ok (DispatchResult.fileWrite (trackFilename artists track.name) payload)
  | some prog =>
    match o.getAlbum track.album with
    | none => Except.error TrackError.albumFetchFailed
    | some (albumName, albumDate) =>
      match stripPreamble decrypted with
      | none => Except.error TrackError.bufferTooShort
      | some payload =>
        let args := toBase62S origId :: track.name :: albumName :: albumDate :: artists
        match o.runHelper prog args payload with
        | none => Except.error TrackError.helperSpawnFailed
        | some exitCode =>
          if exitCode = 0 then Except.ok (DispatchResult.helperRun prog args payload)
          else Except.error TrackError.helperNonZeroExit

/-- The whole per-track closure of `main.rs` lines 89-140 for one extracted
id: resolve, collect artist names, select an encoding, request the audio key
for the resolved track's id, open and fully read the encrypted stream,
decrypt, then dispatch (passing the original extracted id through). -/
def processTrackId (o : SessionOracle) (helper : Option String) (id : Nat) :
    Except TrackError DispatchResult :=
  match resolveTrack o.getTrack id with
  | Except.error e => Except.error e
  | Except.ok track =>
    match fetchArtists o.getArtist track.artists with
    | Except.error e => Except.error e
    | Except.ok artists =>
      match selectFile track.files with
      | none => Except.error TrackError.noOggFormat
      | some fileId =>
        match o.audioKey track.id fileId with
        | none => Except.error TrackError.keyDenied
        | some key =>
          match o.openStream fileId with
          | none => Except.error TrackError.streamFailed
          | some buffer =>
            match o.decrypt key buffer with
            | none => Except.error TrackError.decryptFailed
            | some decrypted => dispatch o helper id track artists decrypted

/-- The `for_each` loop of `main.rs` over the extracted ids.  A per-track
error is a panic in the source, so it terminates the whole run: the results
of the lines processed so far are kept and no later id is touched.  Returns
the deliveries made and the terminating error, if any. -/
def runIds (o : SessionOracle) (helper : Option String) :
    List Nat → List DispatchResult × Option TrackError
  | [] => ([], none)
  | id :: rest =>
    match processTrackId o helper id with
    | Except.error e => ([], some e)
    | Except.ok r =>
      let rs := runIds o helper rest
      (r :: rs.1, rs.2)

/-- The whole post-connection run of `main.rs`: extract ids from the input
lines, then process them in order. -/
def runProgram (o : SessionOracle) (helper : Option String)
    (lines : List (List Char)) : List DispatchResult × Option TrackError :=
  runIds o helper (extractIds lines)

/-- Availability of the track an id fetches to (used to state what the
alternatives walk computes). -/
def pAvail (getTrack : Nat → Option Track) (a : Nat) : Bool :=
  match getTrack a with
  | some t => t.available
  | none => false

/-- Fixture: an unavailable track with no alternatives (id 1). -/
def cexTrackUnavail : Track :=
  { id := 1, name := "Gone", album := 5, artists := [7],
    files := fun _ => none, alternatives := [], available := false }

/-- Fixture: an available track (id 2) offering only `OGG_VORBIS_320`. -/
def cexTrack : Track :=
  { id := 2, name := "Song", album := 5, artists := [7],
    files := fun f => if f = FileFormat.OGG_VORBIS_320 then some 11 else none,
    alternatives := [], available := true }

/-- Fixture oracle: id 1 resolves to the unavailable track with no
alternatives, id 2 to the available track; every downstream step succeeds
and the stream holds exactly 167 bytes. -/
def cexOracle : SessionOracle :=
  { getTrack := fun i =>
      if i = 1 then some cexTrackUnavail
      else if i = 2 then some cexTrack
      else none,
    getArtist := fun _ => some "Artist",
    getAlbum := fun _ => some ("Album", "2020-01-01"),
    audioKey := fun _ _ => some 99,
    openStream := fun _ => some (List.replicate 167 0),
    decrypt := fun _ b => some b,
    runHelper := fun _ _ _ => some 0 }

/-- Claim C3: the encoding selector returns the `OGG_VORBIS_320` handle when
present, otherwise the `OGG_VORBIS_160` handle when present, otherwise the
`OGG_VORBIS_96` handle, and yields nothing (fatal for the line) when none of
the three tiers is in the map; being a pure function of the map, it has no
side effects. -/
theorem c3_selector (files : FileFormat → Option Nat) :
    selectFile files =
      match files FileFormat.OGG_VORBIS_320, files FileFormat.OGG_VORBIS_160,
          files FileFormat.OGG_VORBIS_96 with
      | some h, _, _ => some h
      | none, some h, _ => some h
      | none, none, r => r := by
  unfold selectFile
  cases files FileFormat.OGG_VORBIS_320 <;>
    cases files FileFormat.OGG_VORBIS_160 <;>
      cases files FileFormat.OGG_VORBIS_96 <;> rfl

/-- Unfolding of the preamble strip on a successful slice. -/
theorem stripPreamble_eq_some {d p : List UInt8} (h : stripPreamble d = some p) :
    p = d.drop 167 ∧ 167 ≤ d.length := by
  unfold stripPreamble at h
  by_cases hl : 167 ≤ d.length
  · simp [hl] at h
    exact ⟨h.symm, hl⟩
  · simp [hl] at h

/-- Claim C4: whatever mode the dispatcher runs in, the payload it delivers
(file content in file mode, helper stdin in helper mode) is exactly the
decrypted buffer with its first 167 bytes removed, so the delivered length
plus 167 is the decrypted length. -/
theorem c4_strip (o : SessionOracle) (helper : Option String) (origId : Nat)
    (track : Track) (artists : List String) (decrypted : List UInt8)
    (r : DispatchResult)
    (h : dispatch o helper origId track artists decrypted = Except.ok r) :
    payloadOf r = decrypted.drop 167 ∧
      (payloadOf r).length + 167 = decrypted.length := by
  have main : payloadOf r = decrypted.drop 167 ∧ 167 ≤ decrypted.length := by
    cases helper with
    | none =>
      unfold dispatch at h
      cases hs : stripPreamble decrypted with
      | none => simp [hs] at h
      | some payload =>
        simp [hs] at h
        obtain ⟨hp, hl⟩ := stripPreamble_eq_some hs
        subst hp
        cases h
        exact ⟨rfl, hl⟩
    | some prog =>
      unfold dispatch at h
      cases ha : o.getAlbum track.album with
      | none => simp [ha] at h
      | some ab =>
        cases hs : stripPreamble decrypted with
        | none => simp [ha, hs] at h
        | some payload =>
          obtain ⟨hp, hl⟩ := stripPreamble_eq_some hs
          subst hp
          simp [ha, hs] at h
          cases hr : o.runHelper prog
              (toBase62S origId :: track.name :: ab.1 :: ab.2 :: artists)
              (decrypted.drop 167) with
          | none => simp [hr] at h
          | some exitCode =>
            simp [hr] at h
            by_cases he : exitCode = 0
            · simp [he] at h
              cases h
              exact ⟨rfl, hl⟩
            · simp [he] at h
  refine ⟨main.1, ?_⟩
  rw [main.1, List.length_drop]
  omega

set_option maxRecDepth 4000 in
/-- Concrete run of `c4_strip`: in file mode with a 167-byte decrypted
buffer, the delivered payload is the empty suffix after the preamble. -/
theorem c4_strip_witness :
    payloadOf (DispatchResult.fileWrite (trackFilename ["Artist"] "Song") []) =
        (List.replicate 167 (0 : UInt8)).drop 167 ∧
      (payloadOf (DispatchResult.fileWrite (trackFilename ["Artist"] "Song") [])).length + 167 =
        (List.replicate 167 (0 : UInt8)).length :=
  c4_strip cexOracle none 0 cexTrack ["Artist"] (List.replicate 167 0)
    (DispatchResult.fileWrite (trackFilename ["Artist"] "Song") []) rfl

/-- Every id the alternatives walk fetches comes from the alternatives
list. -/
theorem probe_trace_subset (getTrack : Nat → Option Track) :
    ∀ (alts : List Nat) (a : Nat),
      a ∈ (probeAlternativesT getTrack alts).2 → a ∈ alts := by
  intro alts
  induction alts with
  | nil => intro a ha; simp [probeAlternativesT] at ha
  | cons b rest ih =>
    intro a ha
    cases hb : getTrack b with
    | none =>
      simp [probeAlternativesT, hb] at ha
      simp [ha]
    | some t =>
      by_cases hav : t.available = true
      · simp [probeAlternativesT, hb, hav] at ha
        simp [ha]
      · have hfalse : t.available = false := by simpa using hav
        simp [probeAlternativesT, hb, hfalse] at ha
        cases ha with
        | inl h => simp [h]
        | inr h => exact List.mem_cons_of_mem _ (ih a h)

/-- When every alternative's fetch succeeds, the walk never aborts and its
value is the metadata of the first listed alternative whose fetch reports it
available. -/
theorem probe_result_char (getTrack : Nat → Option Track) :
    ∀ (alts : List Nat), (∀ a ∈ alts, (getTrack a).isSome = true) →
      (probeAlternativesT getTrack alts).1 =
        Except.ok ((alts.find? (pAvail getTrack)).bind getTrack) := by
  intro alts
  induction alts with
  | nil => intro _; simp [probeAlternativesT]
  | cons b rest ih =>
    intro hall
    have hb : (getTrack b).isSome = true := hall b (by simp)
    cases hgb : getTrack b with
    | none => rw [hgb] at hb; simp at hb
    | some t =>
      by_cases hav : t.available = true
      · have hp : pAvail getTrack b = true := by simp [pAvail, hgb, hav]
        simp only [probeAlternativesT, hgb, hav, if_true]
        rw [List.find?_cons_of_pos _ hp]
        simp [hgb, hav]
      · have hfalse : t.available = false := by simpa using hav
        have hp : pAvail getTrack b = false := by simp [pAvail, hgb, hfalse]
        rw [List.find?_cons_of_neg _ (by simp [hp])]
        simp only [probeAlternativesT, hgb, hfalse]
        simp only [Bool.false_eq_true, if_false]
        exact ih (fun a ha => hall a (List.mem_cons_of_mem _ ha))

/-- When every alternative's fetch succeeds, the walk fetches exactly the
unavailable-so-far head of the list, plus the first available entry when one
exists, and nothing after it. -/
theorem probe_trace_char (getTrack : Nat → Option Track) :
    ∀ (alts : List Nat), (∀ a ∈ alts, (getTrack a).isSome = true) →
      (probeAlternativesT getTrack alts).2 =
        alts.takeWhile (fun a => !(pAvail getTrack a)) ++
          (alts.find? (pAvail getTrack)).toList := by
  intro alts
  induction alts with
  | nil => intro _; simp [probeAlternativesT]
  | cons b rest ih =>
    intro hall
    have hb : (getTrack b).isSome = true := hall b (by simp)
    cases hgb : getTrack b with
    | none => rw [hgb] at hb; simp at hb
    | some t =>
      by_cases hav : t.available = true
      · have hp : pAvail getTrack b = true := by simp [pAvail, hgb, hav]
        simp only [probeAlternativesT, hgb, hav, if_true]
        rw [List.find?_cons_of_pos _ hp, List.takeWhile_cons]
        simp [hp]
      · have hfalse : t.available = false := by simpa using hav
        have hp : pAvail getTrack b = false := by simp [pAvail, hgb, hfalse]
        rw [List.find?_cons_of_neg _ (by simp [hp]), List.takeWhile_cons]
        simp only [probeAlternativesT, hgb, hfalse]
        simp only [Bool.false_eq_true, if_false, hp, Bool.not_false, if_true,
          List.cons_append]
        rw [ih (fun a ha => hall a (List.mem_cons_of_mem _ ha))]

/-- Claim C2: for a fetched track that is unavailable, the resolver probes
the alternatives strictly in listed order (the fetch trace is the
unavailable head of the list followed by the first available entry, with no
later entry probed), returns the first available alternative's metadata,
fails for the line when the list is exhausted without an available entry
(including the empty list), and — since every probe is drawn from the
alternatives list — never re-fetches the original track when it is not
listed among its own alternatives. -/
theorem c2_resolver (getTrack : Nat → Option Track) (id : Nat) (t : Track)
    (h1 : getTrack id = some t) (h2 : t.available = false)
    (hall : ∀ a ∈ t.alternatives, (getTrack a).isSome = true) :
    (probeAlternativesT getTrack t.alternatives).2 =
        t.alternatives.takeWhile (fun a => !(pAvail getTrack a)) ++
          (t.alternatives.find? (pAvail getTrack)).toList ∧
      resolveTrack getTrack id =
        (match (t.alternatives.find? (pAvail getTrack)).bind getTrack with
         | some alt => Except.ok alt
         | none => Except.error TrackError.noAlternative) ∧
      (∀ a, a ∈ (probeAlternativesT getTrack t.alternatives).2 →
        a ∈ t.alternatives) ∧
      (id ∉ t.alternatives → id ∉ (probeAlternativesT getTrack t.alternatives).2) := by
  refine ⟨probe_trace_char getTrack t.alternatives hall, ?_,
    probe_trace_subset getTrack t.alternatives, ?_⟩
  · unfold resolveTrack
    rw [h1]
    simp only [h2, if_false]
    rw [probe_result_char getTrack t.alternatives hall]
    cases hx : (t.alternatives.find? (pAvail getTrack)).bind getTrack <;> rfl
  · intro hnot hmem
    exact hnot (probe_trace_subset getTrack t.alternatives id hmem)

/-- Fixture: the track resolved in the C2 witness — unavailable, with
alternatives 3, 4, 5. -/
def c2TrackMain : Track :=
  { id := 1, name := "Main", album := 5, artists := [7],
    files := fun _ => none, alternatives := [3, 4, 5], available := false }

/-- Fixture: alternative 3, fetched but unavailable. -/
def c2Alt3 : Track :=
  { id := 3, name := "AltThree", album := 5, artists := [7],
    files := fun _ => none, alternatives := [], available := false }

/-- Fixture: alternative 4, the first available alternative. -/
def c2Alt4 : Track :=
  { id := 4, name := "AltFour", album := 5, artists := [7],
    files := fun _ => none, alternatives := [], available := true }

/-- Fixture: alternative 5, available but listed after 4 (must never be
probed). -/
def c2Alt5 : Track :=
  { id := 5, name := "AltFive", album := 5, artists := [7],
    files := fun _ => none, alternatives := [], available := true }

/-- Fixture fetch oracle for the C2 witness. -/
def c2Fetch : Nat → Option Track := fun i =>
  if i = 1 then some c2TrackMain
  else if i = 3 then some c2Alt3
  else if i = 4 then some c2Alt4
  else if i = 5 then some c2Alt5
  else none

/-- Concrete run of `c2_resolver`: alternatives `[3, 4, 5]` with 3
unavailable and 4 available give the fetch trace `[3, 4]`. -/
theorem c2_resolver_witness :
    (probeAlternativesT c2Fetch c2TrackMain.alternatives).2 =
      c2TrackMain.alternatives.takeWhile (fun a => !(pAvail c2Fetch a)) ++
        (c2TrackMain.alternatives.find? (pAvail c2Fetch)).toList :=
  (c2_resolver c2Fetch 1 c2TrackMain rfl rfl (by decide)).1

set_option maxRecDepth 4000 in
/-- Claim C1 fails on the code: every per-track failure in `main.rs` goes
through `expect`/`assert!`, which panics and terminates the whole process,
not just the current line.  Concretely: id 1 fetches to an unavailable track
with no alternatives (a per-track failure the claim lists), id 2 on its own
processes to a successful file write, yet the run over the two lines
`[1, 2]` delivers nothing at all — the second line is never processed,
where the claim predicts its delivery. -/
theorem c1_counterexample :
    processTrackId cexOracle none 1 = Except.error TrackError.noAlternative ∧
      processTrackId cexOracle none 2 =
        Except.ok (DispatchResult.fileWrite "Artist - Song.ogg" []) ∧
      (runIds cexOracle none [1, 2]).1 = [] ∧
      (runIds cexOracle none [1, 2]).1 ≠
        [DispatchResult.fileWrite "Artist - Song.ogg" []] := by
  refine ⟨rfl, rfl, rfl, ?_⟩
  intro h
  rw [show (runIds cexOracle none [1, 2]).1 = [] from rfl] at h
  exact List.noConfusion h

/-- Claim C1 as amended: a per-track failure (any of the crash points of the
per-track closure) terminates the whole run — the failure is reported as the
run's terminating error and no later input line is processed (no deliveries
are made from the failing line on). -/
theorem c1_amended (o : SessionOracle) (helper : Option String) (id : Nat)
    (rest : List Nat) (e : TrackError)
    (h : processTrackId o helper id = Except.error e) :
    runIds o helper (id :: rest) = ([], some e) := by
  simp [runIds, h]

/-- Concrete run of `c1_amended`: the failing first line makes the whole
two-line run stop with its error. -/
theorem c1_amended_witness :
    runIds cexOracle none [1, 2] = ([], some TrackError.noAlternative) :=
  c1_amended cexOracle none 1 [2] TrackError.noAlternative rfl

/-- Claim C7: with a helper program configured, the dispatcher spawns it
with positional arguments `[track id in base 62, track name, album name,
album release date, artist names...]` and its stdin piped, writes the
stripped decrypted payload (the decrypted bytes minus the 167-byte preamble)
to that stdin, waits for the exit status, and treats a non-zero status as
fatal for the current line. -/
theorem c7_helper (o : SessionOracle) (prog : String) (origId : Nat)
    (track : Track) (artists : List String) (decrypted : List UInt8)
    (albumName albumDate : String) (payload : List UInt8) (exitCode : Int)
    (h1 : o.getAlbum track.album = some (albumName, albumDate))
    (h2 : stripPreamble decrypted = some payload)
    (h3 : o.runHelper prog
        (toBase62S origId :: track.name :: albumName :: albumDate :: artists)
        payload = some exitCode) :
    dispatch o (some prog) origId track artists decrypted =
        (if exitCode = 0
         then Except.ok (DispatchResult.helperRun prog
            (toBase62S origId :: track.name :: albumName :: albumDate :: artists)
            payload)
         else Except.error TrackError.helperNonZeroExit) ∧
      payload = decrypted.drop 167 := by
  refine ⟨?_, (stripPreamble_eq_some h2).1⟩
  simp only [dispatch, h1, h2, h3]

set_option maxRecDepth 4000 in
/-- Concrete run of `c7_helper`: the fixture oracle's helper exits 0, so the
dispatch succeeds with the stripped (here empty) payload on stdin. -/
theorem c7_helper_witness :
    dispatch cexOracle (some "hs") 0 cexTrack ["Artist"] (List.replicate 167 0) =
        (if (0 : Int) = 0
         then Except.ok (DispatchResult.helperRun "hs"
            (toBase62S 0 :: "Song" :: "Album" :: "2020-01-01" :: ["Artist"]) [])
         else Except.error TrackError.helperNonZeroExit) ∧
      ([] : List UInt8) = (List.replicate 167 (0 : UInt8)).drop 167 :=
  c7_helper cexOracle "hs" 0 cexTrack ["Artist"] (List.replicate 167 0)
    "Album" "2020-01-01" [] 0 rfl rfl rfl

/-- Claim C8: in file mode the dispatcher delivers the payload under the
filename made of the artist names joined by a comma and space, a space-dash-
space separator, the track name and the `.ogg` extension; the reported
filename is the one carried by the delivery. -/
theorem c8_file (o : SessionOracle) (origId : Nat) (track : Track)
    (artists : List String) (decrypted payload : List UInt8)
    (h : stripPreamble decrypted = some payload) :
    dispatch o none origId track artists decrypted =
      Except.ok (DispatchResult.fileWrite
        (String.intercalate ", " artists ++ " - " ++ track.name ++ ".ogg")
        payload) := by
  simp only [dispatch, h, trackFilename]

set_option maxRecDepth 4000 in
/-- Concrete run of `c8_file`: two artists joined by a comma and space. -/
theorem c8_file_witness :
    dispatch cexOracle none 0 cexTrack ["A", "B"] (List.replicate 167 0) =
      Except.ok (DispatchResult.fileWrite
        (String.intercalate ", " ["A", "B"] ++ " - " ++ cexTrack.name ++ ".ogg")
        []) :=
  c8_file cexOracle 0 cexTrack ["A", "B"] (List.replicate 167 0) [] rfl

/-- A successful literal match means the scanned text starts with the
literal. -/
theorem litMatch_decomp : ∀ (lit s : List Char), litMatch lit s = true →
    s = lit ++ s.drop lit.length := by
  intro lit
  induction lit with
  | nil => intro s _; simp
  | cons a as ih =>
    intro s h
    cases s with
    | nil => simp [litMatch] at h
    | cons b bs =>
      simp only [litMatch, Bool.and_eq_true, decide_eq_true_eq] at h
      obtain ⟨hab, hrest⟩ := h
      have := ih bs hrest
      simp only [List.length_cons, List.drop_succ_cons, List.cons_append]
      exact congrArg₂ List.cons hab.symm this

/-- A position match decomposes the text as literal, capture and remainder;
the capture is a nonempty all-alphanumeric run. -/
theorem matchAt_parts {lit s cap : List Char} (h : matchAt lit s = some cap) :
    (∃ post, s = lit ++ (cap ++ post)) ∧ cap ≠ [] ∧
      cap.all Char.isAlphanum = true := by
  unfold matchAt at h
  by_cases hl : litMatch lit s = true
  · simp only [hl, if_true] at h
    by_cases he : ((s.drop lit.length).takeWhile Char.isAlphanum).isEmpty = true
    · simp [he] at h
    · simp only [he, if_false] at h
      cases h
      refine ⟨⟨(s.drop lit.length).dropWhile Char.isAlphanum, ?_⟩, ?_, ?_⟩
      · rw [List.takeWhile_append_dropWhile]
        exact litMatch_decomp lit s hl
      · intro hnil
        rw [hnil] at he
        simp [List.isEmpty] at he
      · exact List.all_eq_true.mpr fun x hx => List.mem_takeWhile_imp hx
  · simp [hl] at h

/-- The leftmost-match search decomposes the line around the capture: some
prefix of the line, then the literal, then the nonempty all-alphanumeric
capture, then the rest. -/
theorem findCapture_parts {lit cap : List Char} : ∀ {s : List Char},
    findCapture lit s = some cap →
      (∃ pre post, s = pre ++ lit ++ (cap ++ post)) ∧ cap ≠ [] ∧
        cap.all Char.isAlphanum = true := by
  intro s
  induction s with
  | nil => intro h; simp [findCapture] at h
  | cons c rest ih =>
    intro h
    unfold findCapture at h
    cases hm : matchAt lit (c :: rest) with
    | some cap2 =>
      rw [hm] at h
      simp only [Option.or] at h
      cases h
      obtain ⟨⟨post, hpost⟩, hne, hall⟩ := matchAt_parts hm
      exact ⟨⟨[], post, by simpa using hpost⟩, hne, hall⟩
    | none =>
      rw [hm] at h
      simp only [Option.or] at h
      obtain ⟨⟨pre, post, hpost⟩, hne, hall⟩ := ih h
      exact ⟨⟨c :: pre, post, by simp [hpost]⟩, hne, hall⟩

/-- Claim C6: the extractor tries the URI-style pattern first and the
URL-style pattern second, the first match winning; a successful capture is a
nonempty contiguous alphanumeric substring of the line sitting right after
one of the two pattern literals; a line matching neither pattern is skipped
with the warning (and only then), and the following lines are still
processed. -/
theorem c6_extractor :
    (∀ line, parseLine line =
        (match captureUri line with
         | some cap => (fromBase62 cap, false)
         | none =>
           match captureUrl line with
           | some cap => (fromBase62 cap, false)
           | none => (none, true))) ∧
      (∀ line cap, (captureUri line).or (captureUrl line) = some cap →
        cap ≠ [] ∧ cap.all Char.isAlphanum = true ∧
          ∃ lit pre post, (lit = uriLit ∨ lit = urlLit) ∧
            line = pre ++ lit ++ (cap ++ post)) ∧
      (∀ line rest, captureUri line = none → captureUrl line = none →
        parseLine line = (none, true) ∧
          extractIds (line :: rest) = extractIds rest) := by
  refine ⟨?_, ?_, ?_⟩
  · intro line
    unfold parseLine
    cases hu : captureUri line <;> cases hl : captureUrl line <;>
      simp [Option.or]
  · intro line cap h
    cases hu : captureUri line with
    | some c =>
      rw [hu] at h
      simp only [Option.or] at h
      cases h
      obtain ⟨⟨pre, post, hpost⟩, hne, hall⟩ := findCapture_parts hu
      exact ⟨hne, hall, uriLit, pre, post, Or.inl rfl, hpost⟩
    | none =>
      rw [hu] at h
      simp only [Option.or] at h
      obtain ⟨⟨pre, post, hpost⟩, hne, hall⟩ := findCapture_parts h
      exact ⟨hne, hall, urlLit, pre, post, Or.inr rfl, hpost⟩
  · intro line rest h1 h2
    have hp : parseLine line = (none, true) := by
      unfold parseLine
      rw [h1, h2]
      rfl
    refine ⟨hp, ?_⟩
    unfold extractIds
    rw [List.filterMap_cons]
    simp [hp]

/-- Concrete run of `c6_extractor`: a URI-style line captures its id, a
line matching neither pattern is skipped, warned about, and does not stop
the extraction of later lines. -/
theorem c6_extractor_witness :
    ("abc".toList ≠ [] ∧ ("abc".toList).all Char.isAlphanum = true ∧
      ∃ lit pre post, (lit = uriLit ∨ lit = urlLit) ∧
        "spotify:track:abc".toList = pre ++ lit ++ ("abc".toList ++ post)) ∧
      (parseLine "no track here".toList = (none, true) ∧
        extractIds ["no track here".toList, "spotify:track:abc".toList] =
          extractIds ["spotify:track:abc".toList]) :=
  ⟨c6_extractor.2.1 "spotify:track:abc".toList "abc".toList (by decide),
   c6_extractor.2.2 "no track here".toList ["spotify:track:abc".toList]
     (by decide) (by decide)⟩

/-- Every ASCII-alphanumeric character is in the base-62 alphabet. -/
theorem base62Digit_isSome_of_alnum (c : Char) (h : c.isAlphanum = true) :
    (base62Digit c).isSome = true := by
  unfold base62Digit
  by_cases hd : c.isDigit = true
  · simp [hd]
  · by_cases hl : c.isLower = true
    · simp [hd, hl]
    · by_cases hu : c.isUpper = true
      · simp [hd, hl, hu]
      · exfalso
        simp only [Char.isAlphanum, Char.isAlpha, Bool.or_eq_true] at h
        rcases h with h | h
        · rcases h with h | h
          · exact hu h
          · exact hl h
        · exact hd h

/-- The decode loop succeeds whenever every character decodes. -/
theorem fromBase62Aux_isSome :
    ∀ (cs : List Char) (acc : Nat),
      cs.all (fun c => (base62Digit c).isSome) = true →
        (fromBase62Aux acc cs).isSome = true := by
  intro cs
  induction cs with
  | nil => intro acc _; simp [fromBase62Aux]
  | cons c rest ih =>
    intro acc h
    simp only [List.all_cons, Bool.and_eq_true] at h
    cases hc : base62Digit c with
    | none => rw [hc] at h; simp at h
    | some d =>
      simp only [fromBase62Aux, hc]
      exact ih _ h.2

/-- Claim C10: the warning fires exactly when neither reference pattern
matches the line, so a pattern-matching line whose capture fails to decode
would be dropped with no warning; a line that produced no id never stops the
pipeline — the remaining lines are extracted unchanged; and in fact the
silent-drop path is unreachable, because every capture is a nonempty
ASCII-alphanumeric run and `from_base62` (with the release-build wrapping
arithmetic of the `u128` accumulator) succeeds on every such run. -/
theorem c10_decode (line : List Char) (rest : List (List Char)) :
    ((parseLine line).2 = true ↔
        (captureUri line = none ∧ captureUrl line = none)) ∧
      ((parseLine line).1 = none →
        extractIds (line :: rest) = extractIds rest) ∧
      (∀ cap, (captureUri line).or (captureUrl line) = some cap →
        (fromBase62 cap).isSome = true) := by
  refine ⟨?_, ?_, ?_⟩
  · unfold parseLine
    cases hu : captureUri line <;> cases hl : captureUrl line <;>
      simp [Option.or]
  · intro h
    unfold extractIds
    rw [List.filterMap_cons]
    simp [h]
  · intro cap h
    have hall : cap.all Char.isAlphanum = true := by
      cases hu : captureUri line with
      | some c =>
        rw [hu] at h
        simp only [Option.or] at h
        cases h
        exact (findCapture_parts hu).2.2
      | none =>
        rw [hu] at h
        simp only [Option.or] at h
        exact (findCapture_parts h).2.2
    unfold fromBase62
    exact fromBase62Aux_isSome cap 0
      (List.all_eq_true.mpr fun c hc =>
        base62Digit_isSome_of_alnum c
          (List.all_eq_true.mp hall c hc))

/-- Concrete run of `c10_decode`: a line producing no id leaves the later
lines' extraction unchanged, and a matched capture decodes successfully. -/
theorem c10_decode_witness :
    extractIds ["no track here".toList, "spotify:track:abc".toList] =
        extractIds ["spotify:track:abc".toList] ∧
      (fromBase62 "abc".toList).isSome = true :=
  ⟨(c10_decode "no track here".toList ["spotify:track:abc".toList]).2.1
     (by decide),
   (c10_decode "spotify:track:abc".toList []).2.2 "abc".toList (by decide)⟩

/-- The digit loop only prepends: its accumulator is a suffix of the
output. -/
theorem toBase62Aux_append : ∀ (k n : Nat) (acc : List Char),
    toBase62Aux k n acc = toBase62Aux k n [] ++ acc := by
  intro k
  induction k with
  | zero => intro n acc; simp [toBase62Aux]
  | succ k ih =>
    intro n acc
    calc toBase62Aux (k + 1) n acc
        = toBase62Aux k (n / 62) (base62Char (n % 62) :: acc) := rfl
      _ = toBase62Aux k (n / 62) [] ++ (base62Char (n % 62) :: acc) := ih _ _
      _ = (toBase62Aux k (n / 62) [] ++ [base62Char (n % 62)]) ++ acc := by
          simp
      _ = toBase62Aux k (n / 62) [base62Char (n % 62)] ++ acc := by
          rw [← ih]
      _ = toBase62Aux (k + 1) n [] ++ acc := rfl

/-- The digit loop emits exactly `k` characters. -/
theorem toBase62Aux_length : ∀ (k n : Nat),
    (toBase62Aux k n []).length = k := by
  intro k
  induction k with
  | zero => intro n; rfl
  | succ k ih =>
    intro n
    calc (toBase62Aux (k + 1) n []).length
        = (toBase62Aux k (n / 62) [] ++ [base62Char (n % 62)]).length := by
          rw [show toBase62Aux (k + 1) n [] =
            toBase62Aux k (n / 62) [base62Char (n % 62)] from rfl,
            toBase62Aux_append]
      _ = k + 1 := by simp [ih]

/-- The base-62 alphabet has no repeated characters. -/
theorem base62Char_inj_fin : ∀ a b : Fin 62,
    base62Char a.val = base62Char b.val → a = b := by decide

/-- Fixed-width base-62 renderings of distinct values below `62 ^ k`
differ. -/
theorem toBase62Aux_inj : ∀ (k a b : Nat), a < 62 ^ k → b < 62 ^ k →
    toBase62Aux k a [] = toBase62Aux k b [] → a = b := by
  intro k
  induction k with
  | zero =>
    intro a b ha hb _
    simp only [pow_zero, Nat.lt_one_iff] at ha hb
    omega
  | succ k ih =>
    intro a b ha hb h
    rw [show toBase62Aux (k + 1) a [] =
        toBase62Aux k (a / 62) [base62Char (a % 62)] from rfl,
      show toBase62Aux (k + 1) b [] =
        toBase62Aux k (b / 62) [base62Char (b % 62)] from rfl,
      toBase62Aux_append, toBase62Aux_append _ (b / 62)] at h
    have hlen : (toBase62Aux k (a / 62) []).length =
        (toBase62Aux k (b / 62) []).length := by
      rw [toBase62Aux_length, toBase62Aux_length]
    obtain ⟨h1, h2⟩ := List.append_inj h hlen
    have hchar : base62Char (a % 62) = base62Char (b % 62) := by
      simpa using h2
    have hmod : a % 62 = b % 62 := by
      have ha62 : a % 62 < 62 := Nat.mod_lt _ (by norm_num)
      have hb62 : b % 62 < 62 := Nat.mod_lt _ (by norm_num)
      have := base62Char_inj_fin ⟨a % 62, ha62⟩ ⟨b % 62, hb62⟩ hchar
      exact congrArg Fin.val this
    have hdiva : a / 62 < 62 ^ k := by
      rw [Nat.div_lt_iff_lt_mul (by norm_num : 0 < 62)]
      calc a < 62 ^ (k + 1) := ha
        _ = 62 ^ k * 62 := by ring
    have hdivb : b / 62 < 62 ^ k := by
      rw [Nat.div_lt_iff_lt_mul (by norm_num : 0 < 62)]
      calc b < 62 ^ (k + 1) := hb
        _ = 62 ^ k * 62 := by ring
    have hdiv : a / 62 = b / 62 := ih _ _ hdiva hdivb h1
    have hda := Nat.div_add_mod a 62
    have hdb := Nat.div_add_mod b 62
    omega

/-- `to_base62` is injective on `u128` values. -/
theorem toBase62S_inj (a b : Nat) (ha : a < 2 ^ 128) (hb : b < 2 ^ 128)
    (h : toBase62S a = toBase62S b) : a = b := by
  have hlt : (2 : Nat) ^ 128 < 62 ^ 22 := by norm_num
  unfold toBase62S at h
  have h' : toBase62Aux 22 a [] = toBase62Aux 22 b [] := by
    injection h
  exact toBase62Aux_inj 22 a b (lt_trans ha hlt) (lt_trans hb hlt) h'

/-- Claim C9: in helper mode the first positional argument handed to the
helper is always the base-62 rendering of the originally extracted id — the
per-track closure passes its own parameter `id` to the spawn, while name,
album and payload come from the resolved track `alt`; when the resolver
substituted an alternative with a different id (both ids being `u128`
values), the first argument therefore differs from the base-62 rendering of
the delivered track's id. -/
theorem c9_original_id (o : SessionOracle) (prog : String) (id : Nat)
    (r : DispatchResult)
    (h : processTrackId o (some prog) id = Except.ok r) :
    ∃ alt args payload,
      resolveTrack o.getTrack id = Except.ok alt ∧
      r = DispatchResult.helperRun prog args payload ∧
      args.head? = some (toBase62S id) ∧
      args[1]? = some alt.name ∧
      (id < 2 ^ 128 → alt.id < 2 ^ 128 → id ≠ alt.id →
        toBase62S id ≠ toBase62S alt.id) := by
  unfold processTrackId at h
  split at h
  · exact Except.noConfusion h
  · rename_i track hres
    split at h
    · exact Except.noConfusion h
    · rename_i artists hart
      split at h
      · exact Except.noConfusion h
      · rename_i fileId hsel
        split at h
        · exact Except.noConfusion h
        · rename_i key hkey
          split at h
          · exact Except.noConfusion h
          · rename_i buffer hstr
            split at h
            · exact Except.noConfusion h
            · rename_i decrypted hdec
              simp only [dispatch] at h
              split at h
              · exact Except.noConfusion h
              · rename_i albumName albumDate halb
                split at h
                · exact Except.noConfusion h
                · rename_i payload hsp
                  split at h
                  · exact Except.noConfusion h
                  · rename_i exitCode hrun
                    split at h
                    · exact ⟨track,
                        toBase62S id :: track.name :: albumName :: albumDate ::
                          artists,
                        payload, hres, (Except.ok.inj h).symm, rfl, rfl,
                        fun h1 h2 hne heq =>
                          hne (toBase62S_inj id track.id h1 h2 heq)⟩
                    · exact Except.noConfusion h

/-- Fixture: the originally requested track for the C9 witness (id 1),
unavailable, naming id 2 as its only alternative. -/
def c9Main : Track :=
  { id := 1, name := "Orig", album := 5, artists := [7],
    files := fun _ => none, alternatives := [2], available := false }

/-- Fixture: the substituted alternative (id 2), available, with an
`OGG_VORBIS_320` encoding. -/
def c9Alt : Track :=
  { id := 2, name := "Alt", album := 5, artists := [7],
    files := fun f => if f = FileFormat.OGG_VORBIS_320 then some 11 else none,
    alternatives := [], available := true }

/-- Fixture oracle for the C9 witness: resolution substitutes id 2 for the
requested id 1; every downstream step succeeds and the helper exits 0. -/
def c9Oracle : SessionOracle :=
  { getTrack := fun i =>
      if i = 1 then some c9Main
      else if i = 2 then some c9Alt
      else none,
    getArtist := fun _ => some "Artist",
    getAlbum := fun _ => some ("Album", "2020-01-01"),
    audioKey := fun _ _ => some 99,
    openStream := fun _ => some (List.replicate 167 0),
    decrypt := fun _ b => some b,
    runHelper := fun _ _ _ => some 0 }

set_option maxRecDepth 4000 in
/-- Concrete run of `c9_original_id`: the resolver substitutes the
alternative (id 2) for the requested id 1, yet the helper's first argument
renders id 1. -/
theorem c9_original_id_witness :
    ∃ alt args payload,
      resolveTrack c9Oracle.getTrack 1 = Except.ok alt ∧
      DispatchResult.helperRun "hs"
          (toBase62S 1 :: "Alt" :: "Album" :: "2020-01-01" :: ["Artist"]) [] =
        DispatchResult.helperRun "hs" args payload ∧
      args.head? = some (toBase62S 1) ∧
      args[1]? = some alt.name ∧
      (1 < 2 ^ 128 → alt.id < 2 ^ 128 → 1 ≠ alt.id →
        toBase62S 1 ≠ toBase62S alt.id) :=
  c9_original_id c9Oracle "hs" 1
    (DispatchResult.helperRun "hs"
      (toBase62S 1 :: "Alt" :: "Album" :: "2020-01-01" :: ["Artist"]) [])
    rfl
